import Mathlib

/-!
# Verification development for the libs4go/jsonrpc repository

Shallow embedding of the JSON-RPC runtime:

* the server-side dispatch engine (`src/server/server.go`): positional
  argument decoding (`unmarshalArray` / `parseArgumentArray`), call sites,
  the response writer and its wire marshaling, method registration by
  reflection (`reflectCreateServer`) and `serverImpl.Dispatch`;
* the legacy reflect dispatcher (`callSite.writeResponse` and the
  double-checked-locking call-site cache `reflectDispatcher.callSite`);
* the client-side correlation engine (`src/client/client.go`):
  `Client.Call`, `Client.send`, `Client.tryGetWait`.

Go machine values are modelled abstractly: a JSON document is the inductive
`Json`; a Go value observed through `reflect.Value.Interface()` is a
`GoValue` (nil interface, a value marshaling to some JSON, or a non-nil
error with a message); a handler parameter type (`reflect.Type`) is a
`GoType` carrying its pointer-kindedness and its element decoder.
-/

/-- A JSON document. `num` carries an integer (the numeric payloads the
claims need are integral; the distinction plays no role in the dispatch
control flow being verified). -/
inductive Json where
  | null
  | bool (b : Bool)
  | num (n : Int)
  | str (s : String)
  | arr (elems : List Json)
  | obj (fields : List (String × Json))

/-- A Go value as observed through `reflect.Value.Interface()`:
the nil interface, a non-nil value that marshals to the given JSON, or a
non-nil value implementing `error` with the given message. -/
inductive GoValue where
  | nil
  | val (j : Json)
  | err (msg : String)

/-- The Go `v != nil` / `v == nil` test on an interface value. -/
def GoValue.isNilInterface : GoValue → Bool
  | .nil => true
  | .val _ => false
  | .err _ => false

/-- JSON marshaling of a `GoValue` when it is embedded in a result list.
A nil interface marshals to `null`; an error value without a custom
marshaler marshals to the empty object. -/
def GoValue.toJson : GoValue → Json
  | .nil => Json.null
  | .val j => j
  | .err _ => Json.obj []

/-- `errValue.(error).Error()` on a non-nil error slot value. Registration
guarantees the error slot's declared type implements `error`, so the `.val`
case is unreachable on registered call paths. -/
def GoValue.errMessage : GoValue → String
  | .err m => m
  | .val _ => ""
  | .nil => ""

/-- A handler parameter type (`reflect.Type`): whether its kind is
`reflect.Ptr`, and the element decoder `dec.Decode(reflect.New(t))` for a
single JSON array element (`none` models a decode failure). -/
structure GoType where
  isPtr : Bool
  decode : Json → Option Json

/-- `reflect.Zero(t)` for a pointer-kinded type, as seen by the handler. -/
def GoType.zero (_ : GoType) : Json := Json.null

/-! ## Error codes (`src/jsonrpc.go`, `RPCErrorCode`) -/

def RPCParseError : Int := -32700
def RPCInvalidRequest : Int := -32600
def RPCMethodNotFound : Int := -32601
def RPCInvalidParams : Int := -32602
def RPCInternalError : Int := -32603
def RPCServerError : Int := -32000

/-- `jsonrpc.RPCError` (code, formatted message, optional data). -/
structure RPCError where
  code : Int
  message : String
  data : Option Json

/-- `jsonrpc.RPCRequest`: the parsed request envelope. `params` is the
`interface{}` field after `json.Unmarshal` (`none` = absent field, i.e. the
nil interface); `id` is the `*uint` field (`none` = notification). -/
structure RPCRequest where
  jsonrpc : String
  method : String
  params : Option Json
  id : Option Nat

/-! ## Positional argument decoding (`src/server/server.go` lines 18-64) -/

/-- `parseArgumentArray`: decode array elements in order against the
declared types; an element at an index past the declared count is the
"too many arguments" error; a failing element decode names its index.
(The Go `argval.IsNil()` guard after a successful decode is dead code:
`reflect.New` never returns a nil pointer.) -/
def parseArgumentArray : List GoType → List Json → Nat → Except String (List Json)
  | _, [], _ => .ok []
  | [], _ :: _, i => .error ("too many arguments, want at most " ++ toString i)
  | t :: ts, e :: es, i =>
    match t.decode e with
    | none => .error ("invalid argument " ++ toString i)
    | some v =>
      match parseArgumentArray ts es (i + 1) with
      | .ok vs => .ok (v :: vs)
      | .error msg => .error msg

/-- The fill loop shared by `unmarshalArray` (lines 37-42) and
`callSite.Call` (lines 83-93): each remaining declared parameter, counted
from index `i`, must be pointer-kinded and is filled with its zero value;
a non-pointer type is the "missing value for required argument" error. -/
def fillMissingArgs : List GoType → Nat → Except String (List Json)
  | [], _ => .ok []
  | t :: ts, i =>
    if t.isPtr then
      match fillMissingArgs ts (i + 1) with
      | .ok vs => .ok (t.zero :: vs)
      | .error msg => .error msg
    else
      .error ("missing value for required argument " ++ toString i)

/-- `unmarshalArray`: `null` (or absent) params decode as the empty
argument list, an array decodes elementwise, anything else is the
"non-array args" error; then missing trailing arguments are filled. -/
def unmarshalArray (j : Json) (types : List GoType) : Except String (List Json) :=
  match j with
  | Json.null =>
    match fillMissingArgs types 0 with
    | .ok zs => .ok zs
    | .error msg => .error msg
  | Json.arr elems =>
    match parseArgumentArray types elems 0 with
    | .error msg => .error msg
    | .ok args =>
      match fillMissingArgs (types.drop args.length) args.length with
      | .ok zs => .ok (args ++ zs)
      | .error msg => .error msg
  | _ => .error "non-array args"

/-! ## Response writer (`src/server/server.go` lines 128-162) -/

/-- `responseWriter`: `err` is the `*jsonrpc.RPCError` field, `result` the
`interface{}` field (initially the nil interface). -/
structure ResponseWriter where
  err : Option RPCError
  result : GoValue

/-- The zero `responseWriter` allocated by `Dispatch`. -/
def emptyWriter : ResponseWriter := { err := none, result := GoValue.nil }

/-- `writer.Error(code, format, args...)` with the message preformatted. -/
def ResponseWriter.errorWith (w : ResponseWriter) (e : RPCError) : ResponseWriter :=
  { w with err := some e }

/-- `writer.Result(value)`. -/
def ResponseWriter.resultWith (w : ResponseWriter) (v : GoValue) : ResponseWriter :=
  { w with result := v }

/-- The wire shape of a marshaled `jsonrpc.RPCResponse`: thanks to the
`omitempty` tags, `result` is present iff the `interface{}` field is a
non-nil interface, and `error` is present iff the `*RPCError` is non-nil.
`id` has no `omitempty` and is always present. -/
structure WireResponse where
  jsonrpc : String
  result : Option Json
  error : Option RPCError
  id : Nat

/-- `encoding/json` presence of the `Result interface{}` field under
`omitempty`: omitted exactly when the interface is nil. -/
def GoValue.toWireField : GoValue → Option Json
  | .nil => none
  | .val j => some j
  | .err m => some (GoValue.toJson (.err m))

/-- `responseWriter.marshal(id)`: build the `RPCResponse` with
`Result = writer.result`, `Error = writer.err` when non-nil, and marshal
it (field presence governed by `omitempty`). -/
def ResponseWriter.marshal (w : ResponseWriter) (id : Nat) : WireResponse :=
  { jsonrpc := "2.0"
    result := w.result.toWireField
    error := w.err
    id := id }

/-! ## Call sites and dispatch (`src/server/server.go` lines 66-126, 245-278) -/

/-- `callSite` of the server package: the declared input parameter types
(`cs.in`, receiver excluded) and the bound method
(`cs.method.Func.Call` with the receiver already applied), returning the
list of return values observed through `Interface()`. -/
structure CallSite where
  inTypes : List GoType
  impl : List Json → List GoValue

/-- The parameter-binding phase of `callSite.Call` (lines 74-95): marshal
the request params (total here: they came from `json.Unmarshal`), run
`unmarshalArray`, and — the error return being left unchecked — continue
with whatever argument list it produced (`nil` on error), re-running the
missing-argument fill loop, whose failure is the only path to an
`InvalidParams` response. -/
def callSiteBind (cs : CallSite) (params : Option Json) : Except RPCError (List Json) :=
  let pj := match params with | none => Json.null | some p => p
  let args := match unmarshalArray pj cs.inTypes with | .ok vs => vs | .error _ => []
  match fillMissingArgs (cs.inTypes.drop args.length) args.length with
  | .error msg => .error { code := RPCInvalidParams, message := msg, data := none }
  | .ok zs => .ok (args ++ zs)

/-- The result-writing tail of `callSite.Call` (lines 114-125): more than
two return values wrap the non-error ones as an ordered list; otherwise
`returns[0]` is passed to `Result` directly. -/
def writeCallResult (returns : List GoValue) (w : ResponseWriter) : ResponseWriter :=
  if returns.length > 2 then
    w.resultWith (GoValue.val (Json.arr ((returns.take (returns.length - 1)).map GoValue.toJson)))
  else
    match returns.head? with
    | some v => w.resultWith v
    | none => w

/-- `callSite.Call` (lines 72-126): bind arguments (binding failures write
an error and skip the handler), invoke the handler, read the last return
slot as the error slot; a notification returns with the writer untouched,
a non-nil error becomes an `InternalError` response carrying the error's
message, and otherwise the result is written. An empty return list cannot
occur for registered methods (registration requires at least one return). -/
def callSiteCall (cs : CallSite) (req : RPCRequest) (w : ResponseWriter) : ResponseWriter :=
  match callSiteBind cs req.params with
  | .error e => w.errorWith e
  | .ok args =>
    let returns := cs.impl args
    match returns.getLast? with
    | none => w
    | some errValue =>
      match req.id with
      | none => w
      | some _ =>
        if !errValue.isNilInterface then
          w.errorWith { code := RPCInternalError, message := errValue.errMessage, data := none }
        else
          writeCallResult returns w

/-- The method registry of `serverImpl` (`methods map[string]*callSite`),
as an association list; later insertions shadow earlier ones under
`lookupMethod`, matching map assignment (Go method names are unique per
type, so shadowing never actually occurs). -/
structure ServerImpl where
  methods : List (String × CallSite)

/-- Registry lookup `server.methods[name]`. -/
def lookupMethod : List (String × CallSite) → String → Option CallSite
  | [], _ => none
  | (n, cs) :: rest, m => if n = m then some cs else lookupMethod rest m

/-- A reflected method of the wrapped server object as `reflectCreateServer`
sees it: its name, declared output count, whether the last output type
implements `error`, the input types past the receiver, and the bound
implementation. -/
structure GoMethod where
  name : String
  inTypes : List GoType
  numOut : Nat
  lastOutIsError : Bool
  impl : List Json → List GoValue

/-- `serverImpl.reflectCreateServer` (lines 186-243), restricted to the
registry it builds: a method with no return values is skipped, a method
whose last declared return type does not implement `error` is skipped,
every other method is registered under its name. -/
def reflectCreateServer : List GoMethod → List (String × CallSite)
  | [] => []
  | m :: rest =>
    if m.numOut < 1 then
      reflectCreateServer rest
    else if !m.lastOutIsError then
      reflectCreateServer rest
    else
      (m.name, { inTypes := m.inTypes, impl := m.impl }) :: reflectCreateServer rest

/-- `serverImpl.Dispatch` (lines 245-278) after the envelope has been
parsed: resolve the method; an unknown method on a request writes an
`InvalidRequest` error response, while on a notification it returns
(`nil` bytes, non-nil wrapped `ErrDispatcher` error); a resolved call
site is invoked and its writer marshaled for requests, with notifications
returning (`nil`, `nil`). `Except.error` models Go's non-nil error return,
`Option WireResponse` the response bytes. -/
def serverDispatch (s : ServerImpl) (req : RPCRequest) : Except String (Option WireResponse) :=
  match lookupMethod s.methods req.method with
  | none =>
    match req.id with
    | some i =>
      .ok (some ((emptyWriter.errorWith
        { code := RPCInvalidRequest
          message := "unspport method " ++ req.method
          data := none }).marshal i))
    | none => .error ("unspport method " ++ req.method)
  | some cs =>
    let w := callSiteCall cs req emptyWriter
    match req.id with
    | some i => .ok (some (w.marshal i))
    | none => .ok none

/-! ## Legacy reflect dispatcher (`src/unnamed/part_001`) -/

/-- `callSite.writeResponse` of the legacy reflect dispatcher: fewer than
two return values is a panic (modelled as `none`; `callSite.Call` checks
`NumOut() >= 2` before invoking, so the panic is unreachable from it); a
non-zero last return value (the error slot) becomes a `ServerError`
response carrying the error's message verbatim; exactly two return values
pass the first to `Result` unwrapped; more wrap the non-error values as an
ordered list. -/
def writeResponseLegacy (results : List GoValue) (w : ResponseWriter) : Option ResponseWriter :=
  if results.length < 2 then
    none
  else
    match results.getLast? with
    | none => none
    | some errValue =>
      if !errValue.isNilInterface then
        some (w.errorWith { code := RPCServerError, message := errValue.errMessage, data := none })
      else if results.length = 2 then
        match results.head? with
        | some v => some (w.resultWith v)
        | none => none
      else
        some (w.resultWith
          (GoValue.val (Json.arr ((results.take (results.length - 1)).map GoValue.toJson))))

/-! ## Lazy call-site cache of the legacy dispatcher
(`reflectDispatcher.callSite`, `src/unnamed/part_000` / `part_001`)

`callSite(name)` reads the cache under `RLock`; on a miss it takes the
write lock, re-checks the cache, and only then creates and stores a fresh
call site (double-checked locking). We model the protocol for one method
name as an interleaving of threads: the `RLock` read is one atomic step,
and the whole `Lock` … `Unlock` section is one atomic step (the mutex
serializes it and it contains no suspension point). Created call sites are
identified by their creation ordinal. -/

/-- Position of one thread inside `reflectDispatcher.callSite`:
before the `RLock` read, after a read miss (waiting on the write lock), or
returned with a call site. -/
inductive CSPhase where
  | start
  | missed
  | done (cs : Nat)

/-- Shared state for one method name: the cache slot `callSites[name]`,
the number of `newCallSite` calls performed so far, and every thread's
position. -/
structure DispState where
  cached : Option Nat
  created : Nat
  threads : Nat → CSPhase

/-- Pointwise thread update. -/
def updThread (f : Nat → CSPhase) (i : Nat) (p : CSPhase) : Nat → CSPhase :=
  fun j => if j = i then p else f j

/-- One atomic step of `reflectDispatcher.callSite`:
`readHit` is the `RLock` read finding the cached site; `readMiss` is the
`RLock` read finding nothing; `lockedHit` is the re-check under `Lock`
finding a site another thread stored meanwhile; `lockedCreate` is the
re-check still finding nothing, creating and storing a fresh site. -/
inductive DispStep : DispState → DispState → Prop where
  | readHit (s : DispState) (i c : Nat) :
      s.threads i = .start → s.cached = some c →
      DispStep s { s with threads := updThread s.threads i (.done c) }
  | readMiss (s : DispState) (i : Nat) :
      s.threads i = .start → s.cached = none →
      DispStep s { s with threads := updThread s.threads i .missed }
  | lockedHit (s : DispState) (i c : Nat) :
      s.threads i = .missed → s.cached = some c →
      DispStep s { s with threads := updThread s.threads i (.done c) }
  | lockedCreate (s : DispState) (i : Nat) :
      s.threads i = .missed → s.cached = none →
      DispStep s { cached := some s.created
                   created := s.created + 1
                   threads := updThread s.threads i (.done s.created) }

/-- The initial state for a method name never dispatched: nothing cached,
nothing created, every thread before its first read. -/
def dispInit : DispState :=
  { cached := none, created := 0, threads := fun _ => .start }

/-- States reachable by interleaving callers of
`reflectDispatcher.callSite` for one method name. -/
inductive DispReach : DispState → Prop where
  | init : DispReach dispInit
  | step {s t : DispState} : DispReach s → DispStep s t → DispReach t

/-! ## Client correlation engine (`src/client/client.go`) -/

/-- A parsed `jsonrpc.RPCResponse` as the client receive loop delivers it. -/
structure RPCResponseMsg where
  result : Option Json
  error : Option RPCError
  id : Nat

/-- The mutable client state guarded by the client mutex: the next request
sequence number and the pending-call table `waitQ` (keyed by sequence
number; the delivery channels themselves play no role in the claims, so
the table is its key set, as a characteristic function). -/
structure ClientState where
  seq : Nat
  waitQ : Nat → Bool

/-- `client.waitQ[seq] = result`: map insertion. -/
def waitQInsert (q : Nat → Bool) (seq : Nat) : Nat → Bool :=
  fun k => if k = seq then true else q k

/-- `Client.tryGetWait`: look the key up and delete it when present (the
resulting table; deleting an absent key is a no-op, as for Go maps). -/
def tryGetWait (q : Nat → Bool) (seq : Nat) : Nat → Bool :=
  fun k => if k = seq then false else q k

/-- The client world as the claims observe it: the client state plus the
ordered list of frames handed to `Transport.Send` (each frame recorded as
the request envelope it serializes). -/
structure ClientWorld where
  client : ClientState
  sent : List RPCRequest

/-- `Client.Call` (lines 189-211): build the request envelope with the
method and positional params — an empty argument list becomes an empty
array — leaving `id` unassigned, and wrap it in a `Result` handle. No
client state is touched and nothing is sent. -/
def clientCall (w : ClientWorld) (method : String) (args : List Json) :
    ClientWorld × RPCRequest :=
  let p := if args.length ≠ 0 then Json.arr args else Json.arr []
  (w, { jsonrpc := "2.0", method := method, params := some p, id := none })

/-- How the transport and the four-way race resolve one `send`: either
`Transport.Send` itself fails, or it succeeds and the `select` is won by
client shutdown, the timeout timer, the caller's context, or the matching
response. -/
inductive RaceOutcome where
  | clientClosed
  | timedOut
  | ctxDone
  | response (r : RPCResponseMsg)

/-- Outcome of the `Transport.Send` call inside `Client.send`. -/
inductive TransportSend where
  | fails (e : String)
  | delivered (race : RaceOutcome)

/-- The distinct error kinds `Client.send` returns. -/
inductive ClientSendError where
  | sendErr (e : String)
  | closedErr (seq : Nat)
  | timeoutErr (seq : Nat)
  | canceledErr (seq : Nat)

/-- `Client.send` (lines 230-273): under the mutex, read `seq`, register a
fresh delivery channel at `waitQ[seq]` and increment the counter; assign
`req.ID = &seq`; marshal and hand the frame to `Transport.Send`. A failed
send removes the pending entry (`tryGetWait`) and returns the transport
error. A successful send races shutdown, timeout, cancellation and the
response; every branch removes the pending entry before returning. -/
def clientSend (w : ClientWorld) (req : RPCRequest) (tr : TransportSend) :
    ClientWorld × Except ClientSendError RPCResponseMsg :=
  let seq := w.client.seq
  let q1 := waitQInsert w.client.waitQ seq
  let req1 : RPCRequest := { req with id := some seq }
  let sent1 := w.sent ++ [req1]
  match tr with
  | .fails e =>
    ({ client := { seq := seq + 1, waitQ := tryGetWait q1 seq }, sent := sent1 },
     .error (.sendErr e))
  | .delivered race =>
    let cl : ClientState := { seq := seq + 1, waitQ := tryGetWait q1 seq }
    match race with
    | .clientClosed => ({ client := cl, sent := sent1 }, .error (.closedErr seq))
    | .timedOut => ({ client := cl, sent := sent1 }, .error (.timeoutErr seq))
    | .ctxDone => ({ client := cl, sent := sent1 }, .error (.canceledErr seq))
    | .response r => ({ client := cl, sent := sent1 }, .ok r)

/-! ## Concrete fixtures -/

/-- A string parameter type (kind `string`, not a pointer). -/
def strType : GoType :=
  { isPtr := false
    decode := fun j => match j with | Json.str s => some (Json.str s) | _ => none }

/-- A handler with no declared parameters and signature `() (string, error)`
that succeeds. -/
def pingMethod : GoMethod :=
  { name := "Ping", inTypes := [], numOut := 2, lastOutIsError := true
    impl := fun _ => [GoValue.val (Json.str "pong"), GoValue.nil] }

/-- A server exposing only `Ping`. -/
def pingServer : ServerImpl := { methods := reflectCreateServer [pingMethod] }

/-- A request for `Ping` carrying one positional argument — one more than
the declared parameter count. -/
def tooManyReq : RPCRequest :=
  { jsonrpc := "2.0", method := "Ping", params := some (Json.arr [Json.num 1]), id := some 7 }

/-- A handler with signature `() error` — the error slot is its only
declared return value — that succeeds. -/
def closeMethod : GoMethod :=
  { name := "CloseCall", inTypes := [], numOut := 1, lastOutIsError := true
    impl := fun _ => [GoValue.nil] }

/-- A server exposing only `CloseCall`. -/
def closeServer : ServerImpl := { methods := reflectCreateServer [closeMethod] }

/-- A request (id present) for `CloseCall` with no params. -/
def closeReq : RPCRequest :=
  { jsonrpc := "2.0", method := "CloseCall", params := none, id := some 1 }

/-- The call site registered for `CloseCall`. -/
def closeSite : CallSite := { inTypes := [], impl := fun _ => [GoValue.nil] }

/-- A server with an empty registry. -/
def emptyServer : ServerImpl := { methods := [] }

/-- A request (id present) naming an unregistered method. -/
def missingReq : RPCRequest :=
  { jsonrpc := "2.0", method := "Missing", params := none, id := some 1 }

/-- A notification (no id) naming an unregistered method. -/
def missingNotif : RPCRequest :=
  { jsonrpc := "2.0", method := "Missing", params := none, id := none }

/-- A handler with signature `() (string, error)` that always returns the
error `ErrorCall` (the `ErrorCall` method of the repository's tests). -/
def errorCallMethod : GoMethod :=
  { name := "ErrorCall", inTypes := [], numOut := 2, lastOutIsError := true
    impl := fun _ => [GoValue.val (Json.str ""), GoValue.err "ErrorCall"] }

/-- A server exposing only `ErrorCall`. -/
def errorCallServer : ServerImpl := { methods := reflectCreateServer [errorCallMethod] }

/-- The call site registered for `ErrorCall`. -/
def errorCallSite : CallSite :=
  { inTypes := [], impl := fun _ => [GoValue.val (Json.str ""), GoValue.err "ErrorCall"] }

/-- A request (id present) for `ErrorCall` with no params. -/
def errorCallReq : RPCRequest :=
  { jsonrpc := "2.0", method := "ErrorCall", params := none, id := some 5 }

/-- The `SayHello(string) (string, error)` method of the repository's
tests, restricted to one parameter. -/
def sayHelloMethod : GoMethod :=
  { name := "SayHello", inTypes := [strType], numOut := 2, lastOutIsError := true
    impl := fun _ => [GoValue.val (Json.str "Hello"), GoValue.nil] }

/-! ## C1 -/

/-- C1: the claim says a params array longer than the declared parameter
count is a hard `InvalidParams` failure ("too many arguments") and the
handler is not invoked. The decoding helper `unmarshalArray` does produce
exactly that error, but `callSite.Call` never checks the error it returns
(line 81 of `src/server/server.go` assigns `params, err` and no test of
`err` follows), so for a zero-parameter handler the surplus argument is
silently dropped, the handler runs, and dispatch returns its ordinary
success response. -/
theorem dispatch_ignores_too_many_arguments :
    unmarshalArray (Json.arr [Json.num 1]) [] =
      .error "too many arguments, want at most 0" ∧
    serverDispatch pingServer tooManyReq =
      .ok (some { jsonrpc := "2.0", result := some (Json.str "pong"), error := none, id := 7 }) :=
  ⟨rfl, rfl⟩

/-! ## C2 -/

/-- `writeCallResult` only ever writes the result slot. -/
theorem writeCallResult_err (rs : List GoValue) (w : ResponseWriter) :
    (writeCallResult rs w).err = w.err := by
  unfold writeCallResult
  split
  · rfl
  · split <;> rfl

/-- Every writer `callSite.Call` produces either has no error or has kept
the nil-interface result it started with. -/
theorem callSiteCall_exclusive (cs : CallSite) (req : RPCRequest) :
    (callSiteCall cs req emptyWriter).err = none ∨
    (callSiteCall cs req emptyWriter).result = GoValue.nil := by
  rcases hb : callSiteBind cs req.params with e | args
  · simp only [callSiteCall, hb]
    exact Or.inr rfl
  · simp only [callSiteCall, hb]
    rcases hl : (cs.impl args).getLast? with _ | errValue
    · simp only [hl]
      exact Or.inl rfl
    · simp only [hl]
      rcases hid : req.id with _ | i
      · simp only [hid]
        exact Or.inl rfl
      · simp only [hid]
        cases errValue
        · exact Or.inl (writeCallResult_err _ _)
        · exact Or.inr rfl
        · exact Or.inr rfl

/-- C2 counterexample: dispatching a request to a handler whose only
declared return value is the error slot succeeds, `returns[0]` — the nil
error interface — is passed to `Result`, and the marshaled response omits
both `result` and `error` (`omitempty` drops the nil interface and the nil
error pointer), so the wire response carries neither field. -/
theorem dispatch_success_nil_result_neither_field :
    serverDispatch closeServer closeReq =
      .ok (some { jsonrpc := "2.0", result := none, error := none, id := 1 }) :=
  rfl

/-- C2 (amended): every response produced by `Dispatch` carries at most one
of `result` and `error` on the wire — never both; a success whose result
value is the nil interface carries neither. -/
theorem dispatch_never_both_result_and_error (s : ServerImpl) (req : RPCRequest)
    (resp : WireResponse) (h : serverDispatch s req = .ok (some resp)) :
    resp.result = none ∨ resp.error = none := by
  unfold serverDispatch at h
  cases hm : lookupMethod s.methods req.method with
  | none =>
    rw [hm] at h
    cases hid : req.id with
    | none => rw [hid] at h; exact absurd h (by simp)
    | some i =>
      rw [hid] at h
      have : (emptyWriter.errorWith
          { code := RPCInvalidRequest
            message := "unspport method " ++ req.method
            data := none }).marshal i = resp := by
        exact Option.some.inj (Except.ok.inj h)
      exact Or.inl (by rw [← this]; rfl)
  | some cs =>
    rw [hm] at h
    cases hid : req.id with
    | none => rw [hid] at h; exact absurd (Except.ok.inj h) (by simp)
    | some i =>
      rw [hid] at h
      have hresp : (callSiteCall cs req emptyWriter).marshal i = resp :=
        Option.some.inj (Except.ok.inj h)
      rcases callSiteCall_exclusive cs req with hw | hw
      · exact Or.inr (by rw [← hresp, ResponseWriter.marshal, hw])
      · exact Or.inl (by rw [← hresp, ResponseWriter.marshal, hw]; rfl)

/-- C2 witness: the amended theorem applied to the `CloseCall` dispatch. -/
theorem dispatch_never_both_result_and_error_witness :
    ({ jsonrpc := "2.0", result := none, error := none, id := 1 } : WireResponse).result = none ∨
    ({ jsonrpc := "2.0", result := none, error := none, id := 1 } : WireResponse).error = none :=
  dispatch_never_both_result_and_error closeServer closeReq
    { jsonrpc := "2.0", result := none, error := none, id := 1 } rfl

/-! ## C3 -/

/-- C3 counterexample: dispatching a request naming an unregistered method
yields an error response whose code is `RPCInvalidRequest` (-32600), not
the `MethodNotFound` code (-32601) the claim names. -/
theorem unknown_method_code_not_method_not_found :
    serverDispatch emptyServer missingReq =
      .ok (some { jsonrpc := "2.0", result := none
                  error := some { code := RPCInvalidRequest
                                  message := "unspport method Missing", data := none }
                  id := 1 }) ∧
    RPCInvalidRequest ≠ RPCMethodNotFound :=
  ⟨rfl, by decide⟩

/-- C3 (amended): dispatching a request (id present) whose method does not
resolve against the registry yields an error response with the
`InvalidRequest` code (-32600) and the message `unspport method <name>` —
`Dispatch` returns normally, never a crash. -/
theorem unknown_method_invalid_request_response (s : ServerImpl) (req : RPCRequest) (i : Nat)
    (hid : req.id = some i) (hm : lookupMethod s.methods req.method = none) :
    serverDispatch s req =
      .ok (some { jsonrpc := "2.0", result := none
                  error := some { code := RPCInvalidRequest
                                  message := "unspport method " ++ req.method, data := none }
                  id := i }) := by
  simp only [serverDispatch, hm, hid]
  rfl

/-- C3 witness: the amended theorem applied to the empty registry and the
`Missing` request. -/
theorem unknown_method_invalid_request_response_witness :
    serverDispatch emptyServer missingReq =
      .ok (some { jsonrpc := "2.0", result := none
                  error := some { code := RPCInvalidRequest
                                  message := "unspport method " ++ missingReq.method, data := none }
                  id := 1 }) :=
  unknown_method_invalid_request_response emptyServer missingReq 1 rfl rfl

/-! ## C4 -/

/-- C4: every call site reachable through the registry built by
`reflectCreateServer` comes from a declared method with at least one
return value whose last return type implements `error`; a method whose
last declared return value is not error-shaped is skipped at registration
and is therefore never callable through the registry. -/
theorem registry_only_error_shaped_methods (ms : List GoMethod) (n : String) (cs : CallSite)
    (h : lookupMethod (reflectCreateServer ms) n = some cs) :
    ∃ m, m ∈ ms ∧ m.name = n ∧ 1 ≤ m.numOut ∧ m.lastOutIsError = true := by
  induction ms with
  | nil => exact absurd h (by simp [reflectCreateServer, lookupMethod])
  | cons m rest ih =>
    rw [reflectCreateServer] at h
    split at h
    · obtain ⟨m', hmem, hrest⟩ := ih h
      exact ⟨m', List.mem_cons_of_mem _ hmem, hrest⟩
    · split at h
      · obtain ⟨m', hmem, hrest⟩ := ih h
        exact ⟨m', List.mem_cons_of_mem _ hmem, hrest⟩
      · rw [lookupMethod] at h
        split at h
        · rename_i hlt herr hname
          refine ⟨m, List.mem_cons_self _ _, hname, by omega, ?_⟩
          simpa using herr
        · obtain ⟨m', hmem, hrest⟩ := ih h
          exact ⟨m', List.mem_cons_of_mem _ hmem, hrest⟩

/-- C4 witness: the theorem applied to a registry holding the well-shaped
`SayHello` method. -/
theorem registry_only_error_shaped_methods_witness :
    ∃ m, m ∈ [sayHelloMethod] ∧ m.name = "SayHello" ∧ 1 ≤ m.numOut ∧ m.lastOutIsError = true :=
  registry_only_error_shaped_methods [sayHelloMethod] "SayHello"
    { inTypes := sayHelloMethod.inTypes, impl := sayHelloMethod.impl } rfl

/-! ## C5 -/

/-- C5 counterexample: dispatching `ErrorCall` through the server-package
dispatcher wraps its non-nil error as `InternalError` (-32603), not as the
`ServerError` code (-32000) the claim names (the message is passed through
verbatim either way). -/
theorem handler_error_wrapped_as_internal_error :
    serverDispatch errorCallServer errorCallReq =
      .ok (some { jsonrpc := "2.0", result := none
                  error := some { code := RPCInternalError
                                  message := "ErrorCall", data := none }
                  id := 5 }) ∧
    RPCInternalError ≠ RPCServerError :=
  ⟨rfl, by decide⟩

/-- C5 (amended): when the resolved handler returns a non-nil error, the
error message reaches the caller verbatim, but the wrapping code differs
by dispatcher: `callSite.Call` of the server package writes an
`InternalError` (-32603) response, while `callSite.writeResponse` of the
legacy reflect dispatcher writes a `ServerError` (-32000) response. -/
theorem handler_error_message_verbatim :
    (∀ (cs : CallSite) (req : RPCRequest) (i : Nat) (args : List Json) (m : String),
      req.id = some i →
      callSiteBind cs req.params = .ok args →
      (cs.impl args).getLast? = some (GoValue.err m) →
      callSiteCall cs req emptyWriter =
        emptyWriter.errorWith { code := RPCInternalError, message := m, data := none }) ∧
    (∀ (rs : List GoValue) (m : String) (w : ResponseWriter),
      2 ≤ rs.length →
      rs.getLast? = some (GoValue.err m) →
      writeResponseLegacy rs w =
        some (w.errorWith { code := RPCServerError, message := m, data := none })) := by
  constructor
  · intro cs req i args m hid hbind hlast
    simp only [callSiteCall, hbind, hlast, hid]
    rfl
  · intro rs m w hlen hlast
    simp only [writeResponseLegacy, hlast]
    rw [if_neg (by omega)]
    rfl

/-- C5 witness: the amended theorem applied to the `ErrorCall` call site
and to the legacy writer on the same return list. -/
theorem handler_error_message_verbatim_witness :
    callSiteCall errorCallSite errorCallReq emptyWriter =
      emptyWriter.errorWith { code := RPCInternalError, message := "ErrorCall", data := none } ∧
    writeResponseLegacy [GoValue.val (Json.str ""), GoValue.err "ErrorCall"] emptyWriter =
      some (emptyWriter.errorWith
        { code := RPCServerError, message := "ErrorCall", data := none }) :=
  ⟨handler_error_message_verbatim.1 errorCallSite errorCallReq 5 [] "ErrorCall" rfl rfl rfl,
   handler_error_message_verbatim.2 [GoValue.val (Json.str ""), GoValue.err "ErrorCall"]
     "ErrorCall" emptyWriter (by decide) rfl⟩

/-! ## C6 -/

/-- The inductive invariant of the double-checked-locking protocol for one
method name: while nothing is cached, nothing has been created and no
thread has returned; once something is cached, exactly one creation has
happened; every returned thread returned the cached site. -/
def dispInv (s : DispState) : Prop :=
  (s.cached = none → s.created = 0 ∧ ∀ i c, s.threads i ≠ .done c) ∧
  (∀ c, s.cached = some c → s.created = 1) ∧
  (∀ i c, s.threads i = .done c → s.cached = some c)

/-- The invariant holds initially. -/
theorem dispInv_init : dispInv dispInit :=
  ⟨fun _ => ⟨rfl, fun _ _ h => CSPhase.noConfusion h⟩,
   fun _ h => Option.noConfusion h,
   fun _ _ h => CSPhase.noConfusion h⟩

/-- Every step of the protocol preserves the invariant. -/
theorem dispInv_step {s t : DispState} (hs : dispInv s) (st : DispStep s t) : dispInv t := by
  obtain ⟨hnone, hsome, hdone⟩ := hs
  cases st with
  | readHit i c hth hc =>
    refine ⟨fun h => Option.noConfusion (hc.symm.trans h), hsome, fun j c' hj => ?_⟩
    by_cases hji : j = i
    · subst hji
      simp only [updThread, if_pos rfl] at hj
      cases hj
      exact hc
    · simp only [updThread, if_neg hji] at hj
      exact hdone j c' hj
  | readMiss i hth hc =>
    refine ⟨fun _ => ⟨(hnone hc).1, fun j c' hj => ?_⟩, hsome, fun j c' hj => ?_⟩
    · by_cases hji : j = i
      · subst hji
        simp only [updThread, if_pos rfl] at hj
        exact CSPhase.noConfusion hj
      · simp only [updThread, if_neg hji] at hj
        exact (hnone hc).2 j c' hj
    · by_cases hji : j = i
      · subst hji
        simp only [updThread, if_pos rfl] at hj
        exact CSPhase.noConfusion hj
      · simp only [updThread, if_neg hji] at hj
        exact hdone j c' hj
  | lockedHit i c hth hc =>
    refine ⟨fun h => Option.noConfusion (hc.symm.trans h), hsome, fun j c' hj => ?_⟩
    by_cases hji : j = i
    · subst hji
      simp only [updThread, if_pos rfl] at hj
      cases hj
      exact hc
    · simp only [updThread, if_neg hji] at hj
      exact hdone j c' hj
  | lockedCreate i hth hc =>
    refine ⟨fun h => Option.noConfusion h, fun c' _ => ?_, fun j c' hj => ?_⟩
    · show s.created + 1 = 1
      rw [(hnone hc).1]
    · by_cases hji : j = i
      · subst hji
        simp only [updThread, if_pos rfl] at hj
        cases hj
        rfl
      · simp only [updThread, if_neg hji] at hj
        exact absurd hj ((hnone hc).2 j c')

/-- Every reachable state satisfies the invariant. -/
theorem dispInv_reach {s : DispState} (h : DispReach s) : dispInv s := by
  induction h with
  | init => exact dispInv_init
  | step _ st ih => exact dispInv_step ih st

/-- A step never replaces an already-cached call site. -/
theorem dispStep_cached_stable {s t : DispState} (st : DispStep s t) (c : Nat)
    (h : s.cached = some c) : t.cached = some c := by
  cases st with
  | readHit i c' _ _ => exact h
  | readMiss i _ _ => exact h
  | lockedHit i c' _ _ => exact h
  | lockedCreate i _ hc => exact absurd (hc.symm.trans h) (by simp)

/-- C6: in the legacy reflect dispatcher's double-checked-locking cache,
any interleaving of concurrent callers of `callSite(name)` performs at
most one `newCallSite` for the name, every caller that has returned
obtained the cached call site (so all callers agree on a single site), and
no later step ever replaces a cached site — the site is created lazily by
the first dispatch and cached for the registry's lifetime. -/
theorem lazy_callsite_at_most_one_creation (s : DispState) (h : DispReach s) :
    s.created ≤ 1 ∧
    (∀ i c, s.threads i = .done c → s.cached = some c) ∧
    (∀ i j c c', s.threads i = .done c → s.threads j = .done c' → c = c') ∧
    (∀ t, DispStep s t → ∀ c, s.cached = some c → t.cached = some c) := by
  obtain ⟨hnone, hsome, hdone⟩ := dispInv_reach h
  refine ⟨?_, hdone, fun i j c c' hi hj => ?_, fun t st c hc => dispStep_cached_stable st c hc⟩
  · cases hc : s.cached with
    | none => have h0 := (hnone hc).1; omega
    | some c => have h1 := hsome c hc; omega
  · have h1 := hdone i c hi
    have h2 := hdone j c' hj
    rw [h1] at h2
    exact Option.some.inj h2

/-- The state reached by two racing callers: both miss under `RLock`,
thread 0 wins the write lock and creates site 0, thread 1 re-checks under
the lock and returns the cached site 0. -/
def dispDemoFinal : DispState :=
  { cached := some 0, created := 1
    threads := updThread (updThread (updThread (updThread (fun _ => .start)
      0 .missed) 1 .missed) 0 (.done 0)) 1 (.done 0) }

/-- C6 witness: the theorem applied to the concrete two-caller race. -/
theorem lazy_callsite_at_most_one_creation_witness :
    dispDemoFinal.created ≤ 1 ∧
    (∀ i c, dispDemoFinal.threads i = .done c → dispDemoFinal.cached = some c) ∧
    (∀ i j c c', dispDemoFinal.threads i = .done c → dispDemoFinal.threads j = .done c' →
      c = c') ∧
    (∀ t, DispStep dispDemoFinal t → ∀ c, dispDemoFinal.cached = some c →
      t.cached = some c) :=
  lazy_callsite_at_most_one_creation dispDemoFinal
    (DispReach.step
      (DispReach.step
        (DispReach.step
          (DispReach.step DispReach.init
            (DispStep.readMiss dispInit 0 rfl rfl))
          (DispStep.readMiss _ 1 rfl rfl))
        (DispStep.lockedCreate _ 0 rfl rfl))
      (DispStep.lockedHit _ 1 0 rfl rfl))

/-! ## C7 -/

/-- C7 counterexample: dispatching a notification (no id) naming an
unregistered method produces no response bytes, but `Dispatch` returns a
non-nil error (the wrapped `ErrDispatcher`), not the silent drop the claim
states. -/
theorem unknown_notification_dispatch_returns_error :
    serverDispatch emptyServer missingNotif = .error "unspport method Missing" :=
  rfl

/-- C7 (amended): dispatching a notification (no id) naming an unknown
method produces no response bytes, but `Dispatch` itself returns a non-nil
`ErrDispatcher`-wrapped error to its caller (the transport layer logs it);
the drop-after-logging happens outside `Dispatch`. -/
theorem unknown_notification_no_bytes_nonnil_error (s : ServerImpl) (req : RPCRequest)
    (hid : req.id = none) (hm : lookupMethod s.methods req.method = none) :
    serverDispatch s req = .error ("unspport method " ++ req.method) := by
  simp only [serverDispatch, hm, hid]

/-- C7 witness: the amended theorem applied to the `Missing` notification. -/
theorem unknown_notification_no_bytes_nonnil_error_witness :
    serverDispatch emptyServer missingNotif = .error ("unspport method " ++ missingNotif.method) :=
  unknown_notification_no_bytes_nonnil_error emptyServer missingNotif rfl rfl

/-! ## C8 -/

/-- C8: a call whose `Transport.Send` fails returns the send error, and
`tryGetWait` has removed the call's pending-table entry before `send`
returns — the table ends up exactly as it started minus that call's
sequence number, so a failed send never leaves a pending entry behind. -/
theorem send_failure_removes_pending_entry (w : ClientWorld) (req : RPCRequest) (e : String) :
    (clientSend w req (.fails e)).2 = .error (.sendErr e) ∧
    (clientSend w req (.fails e)).1.client.waitQ w.client.seq = false ∧
    (clientSend w req (.fails e)).1.client.waitQ =
      fun k => if k = w.client.seq then false else w.client.waitQ k := by
  refine ⟨rfl, by simp [clientSend, tryGetWait], ?_⟩
  funext k
  by_cases hk : k = w.client.seq
  · simp [clientSend, tryGetWait, hk]
  · simp [clientSend, tryGetWait, waitQInsert, hk]

/-! ## C9 -/

/-- C9: a registered handler declaring exactly one return value — the
error slot alone — reaches the two-or-fewer-returns branch of
`callSite.Call` on success, so `returns[0]` (the nil error value itself)
is passed to `Result`: the writer's result is the first return value, no
error is written, and the marshaled response omits the `result` field
(nil interface under `omitempty`). -/
theorem single_return_result_from_error_slot (cs : CallSite) (req : RPCRequest) (i : Nat)
    (args : List Json) (hid : req.id = some i)
    (hbind : callSiteBind cs req.params = .ok args)
    (himpl : cs.impl args = [GoValue.nil]) :
    (callSiteCall cs req emptyWriter).err = none ∧
    [(callSiteCall cs req emptyWriter).result] = cs.impl args ∧
    ((callSiteCall cs req emptyWriter).marshal i).result = none := by
  simp only [callSiteCall, hbind, himpl, hid]
  exact ⟨rfl, rfl, rfl⟩

/-- C9 witness: the theorem applied to the `CloseCall` call site. -/
theorem single_return_result_from_error_slot_witness :
    (callSiteCall closeSite closeReq emptyWriter).err = none ∧
    [(callSiteCall closeSite closeReq emptyWriter).result] = closeSite.impl [] ∧
    ((callSiteCall closeSite closeReq emptyWriter).marshal 1).result = none :=
  single_return_result_from_error_slot closeSite closeReq 1 [] rfl rfl rfl

/-! ## C10 -/

/-- C10: `Client.Call` is pure — it touches no client state and sends
nothing (and, returning a `Reply` with no error path, cannot fail); the
request it builds has no sequence id yet. The id is allocated and the
frame sent only inside `send` when `Join` runs: the first `Join` sends the
request stamped with the current sequence number, and a second `Join` on
the same `Reply` re-sends it stamped with the next — fresh — sequence
number. -/
theorem call_is_pure_join_sends_fresh_seq (w : ClientWorld) (method : String)
    (args : List Json) (r1 r2 : RaceOutcome) :
    (clientCall w method args).1 = w ∧
    (clientCall w method args).2.id = none ∧
    (clientSend w (clientCall w method args).2 (.delivered r1)).1.sent =
      w.sent ++ [{ (clientCall w method args).2 with id := some w.client.seq }] ∧
    (clientSend (clientSend w (clientCall w method args).2 (.delivered r1)).1
        (clientCall w method args).2 (.delivered r2)).1.sent =
      (clientSend w (clientCall w method args).2 (.delivered r1)).1.sent ++
        [{ (clientCall w method args).2 with id := some (w.client.seq + 1) }] ∧
    w.client.seq ≠ w.client.seq + 1 := by
  refine ⟨rfl, rfl, ?_, ?_, by omega⟩
  · cases r1 <;> rfl
  · cases r1 <;> cases r2 <;> rfl
